import Mathlib

/-!
Shallow embedding of `sf_tickets_to_github.py`, a script migrating SourceForge
tracker tickets to GitHub issues.  The embedding covers:

* the record transformer `TicketMigrator.convert_ticket_to_issue` (a pure
  function from a ticket summary and an optional detail payload to an issue
  draft);
* the pagination loop of `SourceForgeTicketsFetcher.fetch_tickets`, modelled
  over an abstract page oracle with explicit fuel;
* the orchestrator `TicketMigrator.migrate_tickets`, modelled as a fold that
  additionally records the trace of destination write calls.

Python dictionaries with `.get(key, default)` access are modelled as
structures of `Option`-typed fields; `d.get(k, v)` becomes `field.getD v`.
Python truthiness tests on strings, lists and integers become explicit
comparisons with `""`, `[]` and `0`.
-/

set_option autoImplicit false

namespace SFMigration

/-- A SourceForge ticket summary as returned by the paged `search` endpoint.
Every field is optional, mirroring dictionary access with defaults in the
Python code (`ticket.get("ticket_num", "")`, `ticket.get("summary",
"No summary")`, ...). -/
structure SFTicket where
  ticket_num : Option Nat
  summary : Option String
  status : Option String
  created_date : Option String
  mod_date : Option String
  reported_by : Option String
  description : Option String
deriving DecidableEq

/-- An attachment entry of a detailed ticket; only its `url` field is read
(`att.get("url", "")`). -/
structure SFAttachment where
  url : Option String
deriving DecidableEq

/-- A discussion post (`post.get("author", "unknown")`,
`post.get("timestamp", "")`, `post.get("text", "")`). -/
structure SFPost where
  author : Option String
  timestamp : Option String
  text : Option String
deriving DecidableEq

/-- The discussion thread object; only `posts` is read
(`discussion_thread.get("posts", [])`). -/
structure SFThread where
  posts : Option (List SFPost)
deriving DecidableEq

/-- The inner `"ticket"` object of a detailed-ticket response
(`detailed_data` in the Python code). -/
structure SFDetailData where
  description : Option String
  labels : Option (List String)
  attachments : Option (List SFAttachment)
  discussion_thread : Option SFThread
deriving DecidableEq

/-- A detailed-ticket response, wrapping the `"ticket"` object
(`detailed_ticket.get("ticket", {})`). -/
structure SFDetailResponse where
  ticket : Option SFDetailData
deriving DecidableEq

/-- `detailed_data` when no data is present: the empty dictionary `{}`. -/
def emptyDetailData : SFDetailData :=
  { description := none, labels := none, attachments := none,
    discussion_thread := none }

/-- The result of `convert_ticket_to_issue`: the dictionary
`{"title": ..., "body": ..., "labels": ..., "comments": ...}`. -/
structure IssueDraft where
  title : String
  body : String
  labels : List String
  comments : List String
deriving DecidableEq

/-- Python's `"\n".join(parts)`. -/
def joinLines : List String → String
  | [] => ""
  | [s] => s
  | s :: rest => s ++ "\n" ++ joinLines rest

/-- Python `s.lower()` (on the ASCII fragment exercised by the script):
lowercase every character. -/
def pyLower (s : String) : String := String.mk (s.data.map Char.toLower)

/-- Python `s.replace(old, new)` for a single-character pattern and
replacement, the only form the script uses (`.replace(" ", "-")`). -/
def pyReplaceChar (old new : Char) (s : String) : String :=
  String.mk (s.data.map (fun c => if c = old then new else c))

/-- Python `s.split(sep)` for a single-character separator, on character
lists: splitting the empty string yields `[""]`, and a separator at either
end yields an empty piece there. -/
def splitChars (sep : Char) : List Char → List (List Char)
  | [] => [[]]
  | c :: rest =>
    if c = sep then [] :: splitChars sep rest
    else
      match splitChars sep rest with
      | [] => [[c]]
      | h :: t => (c :: h) :: t

/-- Python `s.split(sep)` for a single-character separator. -/
def pySplit (sep : Char) (s : String) : List String :=
  (splitChars sep s.data).map String.mk

/-- Python `s.startswith(p)`. -/
def pyStartsWith (s p : String) : Bool := p.data.isPrefixOf s.data

/-- Python `s.endswith(p)`. -/
def pyEndsWith (s p : String) : Bool :=
  p.data.reverse.isPrefixOf s.data.reverse

/-- `IMAGE_EXTENSIONS` from the script (a set in Python; order is irrelevant
because it is only consumed by `any(...)`). -/
def IMAGE_EXTENSIONS : List String :=
  [".png", ".jpg", ".jpeg", ".gif", ".bmp", ".svg", ".webp"]

/-- `any(lower_filename.endswith(ext) for ext in IMAGE_EXTENSIONS)` applied to
`filename.lower()`. -/
def isImageFilename (filename : String) : Bool :=
  IMAGE_EXTENSIONS.any (fun ext => pyEndsWith (pyLower filename) ext)

/-- `Path(p).name` for a POSIX path string: the final component of the parsed
path.  `pathlib` parsing splits on `/` and drops empty components and `.`
components; `name` is the last remaining component, or `""` when none is
left. -/
def pathName (p : String) : String :=
  (((pySplit '/' p).filter (fun c => c ≠ "" && c ≠ ".")).getLast?).getD ""

/-- Filename derivation for an attachment URL:
`url_path = Path(url.split('?')[0]); filename = url_path.name if
url_path.name else "attachment"`.  (`Path(...)` and `.name` raise on no
string input, so the `except` branch of the Python code is dead.) -/
def deriveFilename (url : String) : String :=
  let base := (pySplit '?' url).headD ""
  let n := pathName base
  if n ≠ "" then n else "attachment"

/-- URL resolution for an attachment URL: absolute URLs are kept, root-relative
paths get the SourceForge host, any other relative path gets the host plus a
`/` separator. -/
def resolveUrl (url : String) : String :=
  if pyStartsWith url "http://" || pyStartsWith url "https://" then url
  else if pyStartsWith url "/" then "https://sourceforge.net" ++ url
  else "https://sourceforge.net/" ++ url

/-- The attachment `for att in attachments:` loop body of
`convert_ticket_to_issue`, accumulating the markdown lines appended to
`body_parts` (one embedded-image line or one linked-file bullet per
attachment with a non-empty URL, nothing otherwise). -/
def attachmentLines (attachments : List SFAttachment) : List String :=
  attachments.foldl
    (fun acc att =>
      let url := att.url.getD ""
      if url ≠ "" then
        let filename := deriveFilename url
        let full_url := resolveUrl url
        if isImageFilename filename then
          acc ++ ["![" ++ filename ++ "](" ++ full_url ++ ")"]
        else
          acc ++ ["- [" ++ filename ++ "](" ++ full_url ++ ")"]
      else acc)
    []

/-- The string interpolation of `ticket_num` into the title and the body
header: a present ticket number prints as its decimal representation, an
absent one defaults to `""`. -/
def ticketNumStr (ticket : SFTicket) : String :=
  match ticket.ticket_num with
  | some n => toString n
  | none => ""

/-- The description resolution
`detailed_data.get("description") or ticket.get("description", "")`:
Python's `or` falls through on `None` and on the empty string. -/
def resolveDescription (detailed_data : SFDetailData) (ticket : SFTicket) :
    String :=
  let d := detailed_data.description.getD ""
  if d ≠ "" then d else ticket.description.getD ""

/-- The posts of the discussion thread of a detail payload:
`detailed_data.get("discussion_thread", {}).get("posts", [])`. -/
def postsOf (detailed_data : SFDetailData) : List SFPost :=
  ((detailed_data.discussion_thread.getD { posts := none }).posts).getD []

/-- `detailed_ticket.get("ticket", {}) if detailed_ticket else {}`. -/
def detailDataOf (detailed_ticket : Option SFDetailResponse) : SFDetailData :=
  match detailed_ticket with
  | some r => r.ticket.getD emptyDetailData
  | none => emptyDetailData

/-- `TicketMigrator.convert_ticket_to_issue(ticket, detailed_ticket)`. -/
def convert_ticket_to_issue (ticket : SFTicket)
    (detailed_ticket : Option SFDetailResponse) : IssueDraft :=
  let detailed_data : SFDetailData := detailDataOf detailed_ticket
  let num := ticketNumStr ticket
  let summary := ticket.summary.getD "No summary"
  let status := ticket.status.getD ""
  let created_date := ticket.created_date.getD ""
  let mod_date := ticket.mod_date.getD ""
  let reporter := ticket.reported_by.getD "unknown"
  let description := resolveDescription detailed_data ticket
  let title := "[SF#" ++ num ++ "] " ++ summary
  let body_parts : List String :=
    [ "**Migrated from SourceForge ticket #" ++ num ++ "**",
      "",
      "**Original Reporter:** " ++ reporter,
      "**Created:** " ++ created_date,
      "**Last Modified:** " ++ mod_date,
      "**Status:** " ++ status,
      "",
      "---",
      "",
      "## Description",
      "",
      if description ≠ "" then description else "*(No description provided)*" ]
  let attachments := detailed_data.attachments.getD []
  let body_parts :=
    if attachments ≠ [] then
      body_parts ++ ["", "---", "", "## Attachments", ""]
        ++ attachmentLines attachments
    else body_parts
  let body := joinLines body_parts
  let labels := ["migrated-from-sourceforge"]
  let labels :=
    if status ≠ "" then
      labels ++ ["sf-status-" ++ pyReplaceChar ' ' '-' (pyLower status)]
    else labels
  let sf_labels := detailed_data.labels.getD []
  let labels :=
    if sf_labels ≠ [] then
      sf_labels.foldl
        (fun acc label =>
          if label ≠ "" then acc ++ [pyReplaceChar ' ' '-' (pyLower label)]
          else acc)
        labels
    else labels
  let posts := postsOf detailed_data
  let comments :=
    posts.foldl
      (fun acc post =>
        let author := post.author.getD "unknown"
        let timestamp := post.timestamp.getD ""
        let text := post.text.getD ""
        if text ≠ "" then
          acc ++ [joinLines
            [ "**Comment by " ++ author ++ "** *(SourceForge)*",
              "**Date:** " ++ timestamp,
              "",
              text ]]
        else acc)
      []
  { title := title, body := body, labels := labels, comments := comments }

/-! ## Pagination (`SourceForgeTicketsFetcher.fetch_tickets`)

The paged `search` endpoint is modelled as an oracle from a page index to a
page result: either a transport/HTTP failure (the `except` branch of the
loop), or a ticket list together with the server-reported total `count`
(`data.get("tickets", [])` and `data.get("count", 0)`).  The `while True`
loop is given explicit fuel; the theorems show that, for any run that stops
via the code's own break conditions, enough fuel makes the fuel bound
irrelevant. -/

/-- One page response of the source `search` endpoint. -/
inductive PageResult where
  | failure
  | success (tickets : List SFTicket) (count : Nat)
deriving DecidableEq

/-- The ticket list of a page (`[]` on failure; on failure the list is never
read by the loop). -/
def PageResult.ticketList : PageResult → List SFTicket
  | .failure => []
  | .success ts _ => ts

/-- The reported total count of a page (`0` on failure; never read there). -/
def PageResult.totalCount : PageResult → Nat
  | .failure => 0
  | .success _ c => c

/-- The `while True` loop of `fetch_tickets`: at page `page` with accumulated
list `acc`, a failure breaks with `acc`; an empty `ticket_list` breaks with
`acc`; otherwise the page is appended and the loop breaks when
`len(tickets) >= count`, else continues with `page + 1`. -/
def fetchLoop (pages : Nat → PageResult) :
    Nat → Nat → List SFTicket → List SFTicket
  | 0, _, acc => acc
  | fuel + 1, page, acc =>
    match pages page with
    | .failure => acc
    | .success ticket_list count =>
      if ticket_list = [] then acc
      else
        let acc := acc ++ ticket_list
        if acc.length ≥ count then acc
        else fetchLoop pages fuel (page + 1) acc

/-- `fetch_tickets`: run the pagination loop from page `0` with an empty
accumulator. -/
def fetch_tickets (pages : Nat → PageResult) (fuel : Nat) : List SFTicket :=
  fetchLoop pages fuel 0 []

/-- The concatenation, in fetch order, of the ticket lists of pages
`0, ..., k - 1`. -/
def pagesConcat (pages : Nat → PageResult) (k : Nat) : List SFTicket :=
  (List.range k).flatMap (fun p => (pages p).ticketList)

/-- The code's own break condition holds at page `k` (for a run started at
page `0` with an empty accumulator): page `k` is empty, or the cumulative
number of tickets fetched through page `k` reaches page `k`'s reported
total count. -/
def stopsAt (pages : Nat → PageResult) (k : Nat) : Prop :=
  (pages k).ticketList = [] ∨
    (pages k).totalCount ≤ (pagesConcat pages (k + 1)).length

instance (pages : Nat → PageResult) (k : Nat) : Decidable (stopsAt pages k) :=
  inferInstanceAs (Decidable (_ ∨ _))

/-! ## Orchestration (`TicketMigrator.migrate_tickets`)

The external collaborators are modelled as oracles: `details` maps a ticket
number to the detail-fetch result (`None` models a transport/HTTP failure),
`createResult` maps the index of a processed record to the outcome of the
GitHub create-issue call (`some n` = issue created with number `n`, `none` =
failure), and `commentResult` maps a record index and a comment index to the
boolean returned by `add_comment` (the code logs and discards it).  Besides
`success_count`, the model records the trace of destination write calls and
the drafts produced, so that frame properties ("no writes in dry run") are
statable. -/

/-- The detail fetch performed for a ticket:
`fetch_ticket_details(ticket_num)` when a ticket number is present
(`ticket_num != "unknown"`), skipped otherwise. -/
structure MigEnv where
  details : Nat → Option SFDetailResponse
  createResult : Nat → Option Nat
  commentResult : Nat → Nat → Bool

/-- A destination write call, as observed at the GitHub boundary. -/
inductive WriteEvent where
  | createIssue (title body : String) (labels : List String)
  | addComment (issue_number : Nat) (comment : String) (ok : Bool)
deriving DecidableEq

/-- The detail payload used for a ticket: fetched only when the ticket
number is present. -/
def detailFor (env : MigEnv) (ticket : SFTicket) : Option SFDetailResponse :=
  match ticket.ticket_num with
  | some n => env.details n
  | none => none

/-- `tickets[:limit]` applied under `if limit:` — Python truthiness, so
`None` and `0` leave the list untouched and only a positive limit
truncates. -/
def applyLimit (limit : Option Nat) (tickets : List SFTicket) :
    List SFTicket :=
  match limit with
  | none => tickets
  | some n => if n ≠ 0 then tickets.take n else tickets

/-- Loop state of `migrate_tickets`: index of the next record, running
`success_count`, write-call trace, and drafts produced so far. -/
structure MigState where
  idx : Nat
  success_count : Nat
  events : List WriteEvent
  drafts : List IssueDraft
deriving DecidableEq

/-- The body of the `for i, ticket in enumerate(tickets, 1):` loop: fetch
detail, convert, then either count (dry run) or create the issue and, on
success, add every comment in draft order and count. -/
def migrateStep (env : MigEnv) (dry_run : Bool) (st : MigState)
    (ticket : SFTicket) : MigState :=
  let issue_data := convert_ticket_to_issue ticket (detailFor env ticket)
  if dry_run then
    { st with
      idx := st.idx + 1
      success_count := st.success_count + 1
      drafts := st.drafts ++ [issue_data] }
  else
    let events :=
      st.events ++
        [.createIssue issue_data.title issue_data.body issue_data.labels]
    match env.createResult st.idx with
    | some issue_number =>
      let events :=
        events ++ issue_data.comments.enum.map
          (fun jc =>
            .addComment issue_number jc.2 (env.commentResult st.idx jc.1))
      { idx := st.idx + 1
        success_count := st.success_count + 1
        events := events
        drafts := st.drafts ++ [issue_data] }
    | none =>
      { st with
        idx := st.idx + 1
        events := events
        drafts := st.drafts ++ [issue_data] }

/-- Result of a migration pass: `success_count` is the function's return
value, `attempted` the number of records processed (`len(tickets)` after
the limit), plus the recorded trace and drafts. -/
structure MigResult where
  success_count : Nat
  attempted : Nat
  events : List WriteEvent
  drafts : List IssueDraft
deriving DecidableEq

/-- `TicketMigrator.migrate_tickets`, parameterized by the already-fetched
ticket list and the collaborator oracles. -/
def migrate_tickets (env : MigEnv) (fetched : List SFTicket)
    (limit : Option Nat) (dry_run : Bool) : MigResult :=
  let tickets := applyLimit limit fetched
  let final := tickets.foldl (migrateStep env dry_run)
    { idx := 0, success_count := 0, events := [], drafts := [] }
  { success_count := final.success_count
    attempted := tickets.length
    events := final.events
    drafts := final.drafts }

/-- The write calls produced for the record at position `i` of a non-preview
pass: one create call; then, exactly when that call succeeded, one comment
call per draft comment, in draft order. -/
def recordEvents (env : MigEnv) (i : Nat) (ticket : SFTicket) :
    List WriteEvent :=
  let d := convert_ticket_to_issue ticket (detailFor env ticket)
  .createIssue d.title d.body d.labels ::
    (match env.createResult i with
     | none => []
     | some num =>
       d.comments.enum.map
         (fun jc => .addComment num jc.2 (env.commentResult i jc.1)))

/-! ## Concrete inputs used to instantiate the theorems -/

/-- A concrete ticket summary (the spec's scenario ticket #42). -/
def demoTicket : SFTicket :=
  { ticket_num := some 42, summary := some "Crash on save",
    status := some "open", created_date := none, mod_date := none,
    reported_by := some "alice", description := none }

/-- The scenario ticket with another ticket number. -/
def demoTicketN (n : Nat) : SFTicket := { demoTicket with ticket_num := some n }

/-- Five concrete records. -/
def demoFetched5 : List SFTicket :=
  [demoTicketN 1, demoTicketN 2, demoTicketN 3, demoTicketN 4, demoTicketN 5]

/-- Ten concrete records. -/
def demoFetched10 : List SFTicket :=
  (List.range 10).map (fun i => demoTicketN (i + 1))

/-- A concrete failure-free page oracle: page `0` holds one ticket, every
later page another, and every page reports a total count of `2`. -/
def demoPages : Nat → PageResult := fun p =>
  .success (if p = 0 then [demoTicketN 1] else [demoTicketN 2]) 2

/-- A concrete collaborator environment: detail fetches fail (summary-only
conversion), the create call for the record at position `2` fails, every
other create call succeeds, and comment calls succeed. -/
def demoEnv : MigEnv :=
  { details := fun _ => none
    createResult := fun i => if i = 2 then none else some (100 + i)
    commentResult := fun _ _ => true }

/-! ## Helper lemmas -/

theorem strLength_eq_zero_iff (s : String) : s.length = 0 ↔ s = "" := by
  constructor
  · intro h
    cases s with
    | mk d =>
      cases d with
      | nil => rfl
      | cons c cs => simp [String.length] at h
  · intro h
    subst h
    rfl

theorem append_ne_empty_left (s t : String) (hs : s ≠ "") : s ++ t ≠ "" := by
  intro hc
  apply hs
  have hlen : s.length + t.length = 0 := by
    simpa using congrArg String.length hc
  exact (strLength_eq_zero_iff s).mp (by omega)

theorem joinLines_infix_of_mem {s : String} :
    ∀ {l : List String}, s ∈ l → ∃ a b, joinLines l = a ++ s ++ b := by
  intro l
  induction l with
  | nil => intro h; simp at h
  | cons t rest ih =>
    intro h
    rcases List.mem_cons.mp h with heq | hmem
    · subst heq
      cases rest with
      | nil => exact ⟨"", "", by simp [joinLines]⟩
      | cons u us =>
        refine ⟨"", "\n" ++ joinLines (u :: us), ?_⟩
        simp [joinLines, String.append_assoc]
    · rcases ih hmem with ⟨a, b, hab⟩
      cases rest with
      | nil => simp at hmem
      | cons u us =>
        refine ⟨t ++ "\n" ++ a, b, ?_⟩
        simp [joinLines, hab, String.append_assoc]

theorem foldl_push_filter_map {α β : Type} (p : α → Prop) [DecidablePred p]
    (f : α → β) :
    ∀ (l : List α) (init : List β),
      l.foldl (fun acc a => if p a then acc ++ [f a] else acc) init
        = init ++ (l.filter (fun a => decide (p a))).map f := by
  intro l
  induction l with
  | nil => intro init; simp
  | cons a t ih =>
    intro init
    by_cases h : p a <;> simp [h, ih, List.filter_cons]

theorem foldl_push_two {α β : Type} (p : α → Prop) [DecidablePred p]
    (q : α → Prop) [DecidablePred q] (f g : α → β) :
    ∀ (l : List α) (init : List β),
      l.foldl
        (fun acc a =>
          if p a then (if q a then acc ++ [f a] else acc ++ [g a]) else acc)
        init
        = init ++ (l.filter (fun a => decide (p a))).map
            (fun a => if q a then f a else g a) := by
  intro l
  induction l with
  | nil => intro init; simp
  | cons a t ih =>
    intro init
    by_cases h : p a
    · by_cases h2 : q a <;> simp [h, h2, ih, List.filter_cons]
    · simp [h, ih, List.filter_cons]

theorem pagesConcat_succ (pages : Nat → PageResult) (k : Nat) :
    pagesConcat pages (k + 1)
      = pagesConcat pages k ++ (pages k).ticketList := by
  simp [pagesConcat, List.range_succ]

theorem fetchLoop_advance (pages : Nat → PageResult)
    (hok : ∀ p, pages p ≠ .failure) :
    ∀ (k fuel : Nat), (∀ j, j < k → ¬ stopsAt pages j) →
      fetchLoop pages (k + fuel) 0 []
        = fetchLoop pages fuel k (pagesConcat pages k) := by
  intro k
  induction k with
  | zero => intro fuel _; simp [pagesConcat]
  | succ k ih =>
    intro fuel hmin
    have hstep : fetchLoop pages (1 + fuel) k (pagesConcat pages k)
        = fetchLoop pages fuel (k + 1) (pagesConcat pages (k + 1)) := by
      have hk : ¬ stopsAt pages k := hmin k (Nat.lt_succ_self k)
      cases hpk : pages k with
      | failure => exact absurd hpk (hok k)
      | success ticket_list count =>
        have hne : ticket_list ≠ [] := by
          intro hempty
          exact hk (Or.inl (by simp [hpk, PageResult.ticketList, hempty]))
        have hcnt :
            ¬ (pagesConcat pages k ++ ticket_list).length ≥ count := by
          intro hge
          apply hk
          right
          rw [pagesConcat_succ, hpk]
          simpa [PageResult.totalCount, hpk] using hge
        rw [show 1 + fuel = fuel + 1 by omega]
        simp only [fetchLoop, hpk]
        rw [if_neg hne, if_neg hcnt, pagesConcat_succ, hpk]
        simp [PageResult.ticketList]
    calc fetchLoop pages (k + 1 + fuel) 0 []
        = fetchLoop pages (k + (1 + fuel)) 0 [] := by
          rw [show k + 1 + fuel = k + (1 + fuel) by omega]
      _ = fetchLoop pages (1 + fuel) k (pagesConcat pages k) :=
          ih (1 + fuel) (fun j hj => hmin j (Nat.lt_succ_of_lt hj))
      _ = fetchLoop pages fuel (k + 1) (pagesConcat pages (k + 1)) := hstep

theorem countP_add_countP_not {α : Type} (p : α → Bool) :
    ∀ l : List α, l.countP p + l.countP (fun a => !(p a)) = l.length := by
  intro l
  induction l with
  | nil => simp
  | cons a t ih =>
    simp only [List.countP_cons, List.length_cons]
    cases h : p a <;> simp [h] <;> omega

theorem migrate_dry_general (env : MigEnv) :
    ∀ (ts : List SFTicket) (st : MigState),
      ts.foldl (migrateStep env true) st =
        { idx := st.idx + ts.length
          success_count := st.success_count + ts.length
          events := st.events
          drafts := st.drafts ++
            ts.map (fun t => convert_ticket_to_issue t (detailFor env t)) } := by
  intro ts
  induction ts with
  | nil => intro st; simp
  | cons t ts ih =>
    intro st
    rw [List.foldl_cons, ih]
    simp [migrateStep]
    omega

theorem migrate_nondry_general (env : MigEnv) :
    ∀ (ts : List SFTicket) (st : MigState),
      ts.foldl (migrateStep env false) st =
        { idx := st.idx + ts.length
          success_count := st.success_count +
            (ts.enumFrom st.idx).countP
              (fun it => (env.createResult it.1).isSome)
          events := st.events ++
            (ts.enumFrom st.idx).flatMap
              (fun it => recordEvents env it.1 it.2)
          drafts := st.drafts ++
            ts.map (fun t => convert_ticket_to_issue t (detailFor env t)) } := by
  intro ts
  induction ts with
  | nil => intro st; simp
  | cons t ts ih =>
    intro st
    rw [List.foldl_cons]
    cases hc : env.createResult st.idx with
    | some num =>
      have hstep : migrateStep env false st t =
          { idx := st.idx + 1
            success_count := st.success_count + 1
            events := st.events ++ recordEvents env st.idx t
            drafts := st.drafts ++
              [convert_ticket_to_issue t (detailFor env t)] } := by
        simp [migrateStep, recordEvents, hc]
      rw [hstep, ih]
      simp [List.enumFrom_cons, List.countP_cons, hc, List.append_assoc]
      omega
    | none =>
      have hstep : migrateStep env false st t =
          { idx := st.idx + 1
            success_count := st.success_count
            events := st.events ++ recordEvents env st.idx t
            drafts := st.drafts ++
              [convert_ticket_to_issue t (detailFor env t)] } := by
        simp [migrateStep, recordEvents, hc]
      rw [hstep, ih]
      simp [List.enumFrom_cons, List.countP_cons, hc, List.append_assoc]
      omega

theorem filter_map_eq_flatMap {α β : Type} (p : α → Prop) [DecidablePred p]
    (f : α → β) :
    ∀ l : List α,
      (l.filter (fun a => decide (p a))).map f
        = l.flatMap (fun a => if p a then [f a] else []) := by
  intro l
  induction l with
  | nil => simp
  | cons a t ih => by_cases h : p a <;> simp [List.filter_cons, h, ih]

theorem append3_ne_empty (a s b : String) (hs : s ≠ "") : a ++ s ++ b ≠ "" := by
  intro hc
  have h2 : a.length + s.length + b.length = 0 := by
    simpa using congrArg String.length hc
  exact hs ((strLength_eq_zero_iff s).mp (by omega))

theorem joinLines_ne_empty_of_mem {s : String} {l : List String}
    (h : s ∈ l) (hs : s ≠ "") : joinLines l ≠ "" := by
  obtain ⟨a, b, hab⟩ := joinLines_infix_of_mem h
  rw [hab]
  exact append3_ne_empty _ _ _ hs

/-! ## Claim theorems -/

/-- C1: for every (summary, optional detail) input, the draft's label list is
exactly the migration marker `"migrated-from-sourceforge"` as element 0,
then — precisely when the summary's status string is non-empty — the label
`"sf-status-"` followed by the status lowercased with spaces replaced by
hyphens, then every non-empty source label from the detail, in original
order, lowercased with spaces replaced by hyphens, with no deduplication. -/
theorem convert_labels_spec (ticket : SFTicket) (d : Option SFDetailResponse) :
    (convert_ticket_to_issue ticket d).labels =
      "migrated-from-sourceforge" ::
        ((if ticket.status.getD "" ≠ "" then
            ["sf-status-" ++
              pyReplaceChar ' ' '-' (pyLower (ticket.status.getD ""))]
          else []) ++
          (((detailDataOf d).labels.getD []).filter (fun l => l ≠ "")).map
            (fun l => pyReplaceChar ' ' '-' (pyLower l))) := by
  simp only [convert_ticket_to_issue]
  by_cases hl : (detailDataOf d).labels.getD [] = []
  · by_cases hs : ticket.status.getD "" = "" <;> simp [hl, hs]
  · rw [if_pos hl]
    refine (foldl_push_filter_map (fun label => label ≠ "")
      (fun label => pyReplaceChar ' ' '-' (pyLower label)) _ _).trans ?_
    by_cases hs : ticket.status.getD "" = "" <;> simp [hs]

/-- C2: the attachment loop contributes, per attachment, no line when its URL
is empty or absent; otherwise exactly one line, an embedded-image line
exactly when the lower-cased derived filename ends with one of the image
extensions, and a linked-file bullet (with the derived filename as link
text) otherwise. -/
theorem attachment_classification (attachments : List SFAttachment) :
    attachmentLines attachments =
      attachments.flatMap (fun att =>
        if att.url.getD "" = "" then []
        else
          [ if IMAGE_EXTENSIONS.any (fun ext =>
                pyEndsWith (pyLower (deriveFilename (att.url.getD ""))) ext)
            then
              "![" ++ deriveFilename (att.url.getD "") ++ "](" ++
                resolveUrl (att.url.getD "") ++ ")"
            else
              "- [" ++ deriveFilename (att.url.getD "") ++ "](" ++
                resolveUrl (att.url.getD "") ++ ")" ]) := by
  simp only [attachmentLines]
  refine ((foldl_push_two (fun att : SFAttachment => att.url.getD "" ≠ "")
      (fun att : SFAttachment =>
        isImageFilename (deriveFilename (att.url.getD "")) = true)
      (fun att : SFAttachment =>
        "![" ++ deriveFilename (att.url.getD "") ++ "](" ++
          resolveUrl (att.url.getD "") ++ ")")
      (fun att : SFAttachment =>
        "- [" ++ deriveFilename (att.url.getD "") ++ "](" ++
          resolveUrl (att.url.getD "") ++ ")") _ _).trans ?_)
  rw [filter_map_eq_flatMap]
  simp only [List.nil_append]
  apply List.flatMap_congr
  intro att _
  by_cases h : att.url.getD "" = "" <;> simp [h, isImageFilename]

/-- C3: for every attachment URL, the derived filename is the last path
segment (as parsed by `pathlib`: split on `/`, dropping empty and `.`
components) of the URL with everything from the first `?` on removed,
falling back to `"attachment"` when no segment remains; and the resolved
URL is the URL itself when absolute, the source host prefixed to it when
root-relative, and the source host plus a `/` separator prefixed to it in
every other case. -/
theorem attachment_url_rules (url : String) :
    deriveFilename url =
      ((((pySplit '/' ((pySplit '?' url).headD "")).filter
          (fun c => c ≠ "" && c ≠ ".")).getLast?).getD "attachment") ∧
    resolveUrl url =
      (if pyStartsWith url "http://" || pyStartsWith url "https://" then url
       else if pyStartsWith url "/" then "https://sourceforge.net" ++ url
       else "https://sourceforge.net/" ++ url) := by
  constructor
  · simp only [deriveFilename, pathName]
    cases hlast : ((pySplit '/' ((pySplit '?' url).headD "")).filter
        (fun c => c ≠ "" && c ≠ ".")).getLast? with
    | none => simp
    | some s =>
      have hmem : s ∈ (pySplit '/' ((pySplit '?' url).headD "")).filter
          (fun c => c ≠ "" && c ≠ ".") :=
        List.mem_of_mem_getLast? (Option.mem_def.mpr hlast)
      have hs : s ≠ "" := by
        have := List.of_mem_filter hmem
        simp at this
        exact this.1
      simp [hs]
  · rfl

/-- C4: the draft's comment list has exactly one entry per discussion post
with non-empty text, in post order; each entry is the provenance line naming
the author plus the fixed `*(SourceForge)*` marker, a date line with the
post's timestamp, a blank line, and the original text. -/
theorem convert_comments_spec (ticket : SFTicket)
    (d : Option SFDetailResponse) :
    (convert_ticket_to_issue ticket d).comments =
      ((postsOf (detailDataOf d)).filter
          (fun post => post.text.getD "" ≠ "")).map
        (fun post =>
          "**Comment by " ++ post.author.getD "unknown" ++
            "** *(SourceForge)*" ++ "\n" ++
            "**Date:** " ++ post.timestamp.getD "" ++ "\n" ++ "\n" ++
            post.text.getD "") := by
  simp only [convert_ticket_to_issue]
  refine ((foldl_push_filter_map (fun post : SFPost => post.text.getD "" ≠ "")
      (fun post : SFPost => joinLines
        [ "**Comment by " ++ post.author.getD "unknown" ++
            "** *(SourceForge)*",
          "**Date:** " ++ post.timestamp.getD "",
          "",
          post.text.getD "" ]) _ _).trans ?_)
  simp only [List.nil_append]
  apply List.map_congr_left
  intro post _
  simp only [joinLines, String.append_assoc, String.empty_append]

/-- C5: in a failure-free run, the pagination loop stops exactly at the first
page index `k` where the page is empty or the cumulative fetched count
reaches the reported total: with fuel to spare past `k` it returns the
concatenation, in fetch order, of all pages through `k`, and with any fuel
bound of at most `k` iterations it is still running, having accumulated
exactly the pages it has visited. -/
theorem fetch_tickets_pagination (pages : Nat → PageResult)
    (k fuel fuel1 : Nat)
    (hok : ∀ p, pages p ≠ PageResult.failure)
    (hstop : stopsAt pages k)
    (hmin : ∀ j, j < k → ¬ stopsAt pages j)
    (hfuel : k < fuel) (hfuel1 : fuel1 ≤ k) :
    fetch_tickets pages fuel = pagesConcat pages (k + 1) ∧
    fetch_tickets pages fuel1 = pagesConcat pages fuel1 := by
  constructor
  · obtain ⟨m, hm⟩ : ∃ m, fuel = k + (m + 1) := ⟨fuel - k - 1, by omega⟩
    rw [fetch_tickets, hm, fetchLoop_advance pages hok k (m + 1) hmin]
    cases hpk : pages k with
    | failure => exact absurd hpk (hok k)
    | success ticket_list count =>
      simp only [fetchLoop, hpk]
      by_cases htl : ticket_list = []
      · rw [if_pos htl, pagesConcat_succ, hpk]
        simp [PageResult.ticketList, htl]
      · rw [if_neg htl]
        have hcnt : (pagesConcat pages k ++ ticket_list).length ≥ count := by
          rcases hstop with hempty | hcount
          · rw [hpk] at hempty
            exact absurd hempty htl
          · rw [pagesConcat_succ, hpk] at hcount
            simpa [PageResult.totalCount, hpk] using hcount
        rw [if_pos hcnt, pagesConcat_succ, hpk]
        simp [PageResult.ticketList]
  · rw [fetch_tickets, (by omega : fuel1 = fuel1 + 0),
      fetchLoop_advance pages hok fuel1 0
        (fun j hj => hmin j (Nat.lt_of_lt_of_le hj hfuel1))]
    rfl

/-- C6: a preview (dry-run) pass performs no destination write call and
counts every processed record as succeeded, for every limit; and with a
positive limit `N` smaller than the number of fetched records it processes
exactly the first `N` records in listing order, reporting `N` attempted and
`N` succeeded. -/
theorem migrate_preview_frame (env : MigEnv) (fetched : List SFTicket)
    (limit : Option Nat) (N : Nat) (h1 : 0 < N) (h2 : N < fetched.length) :
    ((migrate_tickets env fetched limit true).events = [] ∧
     (migrate_tickets env fetched limit true).success_count
        = (applyLimit limit fetched).length ∧
     (migrate_tickets env fetched limit true).attempted
        = (applyLimit limit fetched).length ∧
     (migrate_tickets env fetched limit true).drafts
        = (applyLimit limit fetched).map
            (fun t => convert_ticket_to_issue t (detailFor env t))) ∧
    ((migrate_tickets env fetched (some N) true).attempted = N ∧
     (migrate_tickets env fetched (some N) true).success_count = N ∧
     (migrate_tickets env fetched (some N) true).events = [] ∧
     (migrate_tickets env fetched (some N) true).drafts
        = (fetched.take N).map
            (fun t => convert_ticket_to_issue t (detailFor env t))) := by
  have hlim : applyLimit (some N) fetched = fetched.take N := by
    simp [applyLimit, Nat.pos_iff_ne_zero.mp h1]
  have hlen : (fetched.take N).length = N := by
    simp [Nat.min_eq_left (Nat.le_of_lt h2)]
  constructor
  · simp [migrate_tickets, migrate_dry_general]
  · simp [migrate_tickets, migrate_dry_general, hlim, hlen]

/-- C7: in a non-preview pass, the write trace decomposes per record — one
create call each, followed by that record's comment calls exactly when its
create call succeeded — so one record's create failure suppresses only its
own comments and leaves every other record's processing unchanged; with
five records of which exactly one fails at creation, the outcome is 4 of 5
succeeded. -/
theorem migrate_create_failure_isolated (env : MigEnv)
    (fetched : List SFTicket) (limit : Option Nat)
    (h5 : (applyLimit limit fetched).length = 5)
    (h1 : ((applyLimit limit fetched).enum).countP
        (fun it => (env.createResult it.1).isNone) = 1) :
    (migrate_tickets env fetched limit false).success_count = 4 ∧
    (migrate_tickets env fetched limit false).attempted = 5 ∧
    (migrate_tickets env fetched limit false).events
      = ((applyLimit limit fetched).enum).flatMap
          (fun it => recordEvents env it.1 it.2) := by
  have hsum := countP_add_countP_not
    (fun it : Nat × SFTicket => (env.createResult it.1).isSome)
    ((applyLimit limit fetched).enum)
  have hnot : ((applyLimit limit fetched).enum).countP
      (fun it => !((env.createResult it.1).isSome))
        = ((applyLimit limit fetched).enum).countP
            (fun it => (env.createResult it.1).isNone) := by
    apply List.countP_congr
    intro it _
    cases env.createResult it.1 <;> simp
  have hlen : ((applyLimit limit fetched).enum).length = 5 := by
    simp [h5]
  refine ⟨?_, ?_, ?_⟩
  · rw [hnot, h1, hlen] at hsum
    have henum : (applyLimit limit fetched).enum
        = List.enumFrom 0 (applyLimit limit fetched) := rfl
    rw [henum] at hsum
    simp only [migrate_tickets, migrate_nondry_general]
    omega
  · simp [migrate_tickets, h5]
  · simp [migrate_tickets, migrate_nondry_general, List.enum]

/-- C9: a limit of `0` is falsy in the code's truthiness test, so it applies
no truncation at all — the pass with limit `0` is identical to the pass
with no limit and processes every fetched record; only a strictly positive
limit `n` truncates the record list to its first `n` elements. -/
theorem migrate_zero_limit (env : MigEnv) (fetched : List SFTicket)
    (dry_run : Bool) (n : Nat) (hn : 0 < n) :
    migrate_tickets env fetched (some 0) dry_run
        = migrate_tickets env fetched none dry_run ∧
    (migrate_tickets env fetched (some 0) dry_run).attempted
        = fetched.length ∧
    applyLimit (some 0) fetched = fetched ∧
    applyLimit (some n) fetched = fetched.take n := by
  refine ⟨rfl, rfl, rfl, ?_⟩
  simp [applyLimit, Nat.pos_iff_ne_zero.mp hn]

/-- C10: in a non-preview pass, a record counts as succeeded exactly when
its create-issue call succeeds: the success count equals the number of
records whose create call returned an issue, and it is unchanged under any
replacement of the comment-call outcomes. -/
theorem migrate_success_indep_comment_failures (env : MigEnv)
    (fetched : List SFTicket) (limit : Option Nat)
    (cr : Nat → Nat → Bool) :
    (migrate_tickets { env with commentResult := cr } fetched limit
        false).success_count
      = (migrate_tickets env fetched limit false).success_count ∧
    (migrate_tickets env fetched limit false).success_count
      = ((applyLimit limit fetched).enum).countP
          (fun it => (env.createResult it.1).isSome) := by
  constructor
  · simp [migrate_tickets, migrate_nondry_general, detailFor]
  · simp [migrate_tickets, migrate_nondry_general, List.enum]

/-- C8: the transform is total — on every summary and optional detail it
yields a draft whose body is non-empty and whose title contains the
rendered original record identifier; and whenever no description is
available from either input, the body contains the
`*(No description provided)*` placeholder. -/
theorem convert_total_safe (ticket : SFTicket) (d : Option SFDetailResponse) :
    (convert_ticket_to_issue ticket d).body ≠ "" ∧
    (∃ a b, (convert_ticket_to_issue ticket d).title
        = a ++ ticketNumStr ticket ++ b) ∧
    (resolveDescription (detailDataOf d) ticket = "" →
      ∃ a b, (convert_ticket_to_issue ticket d).body
          = a ++ "*(No description provided)*" ++ b) := by
  have hhead : "**Migrated from SourceForge ticket #" ++ ticketNumStr ticket
      ++ "**" ≠ "" :=
    append_ne_empty_left _ _
      (append_ne_empty_left _ _ (by decide))
  refine ⟨?_, ?_, ?_⟩
  · simp only [convert_ticket_to_issue]
    split
    all_goals exact joinLines_ne_empty_of_mem (by simp) hhead
  · exact ⟨"[SF#", "] " ++ ticket.summary.getD "No summary",
      by simp [convert_ticket_to_issue, String.append_assoc]⟩
  · intro hdesc
    simp only [convert_ticket_to_issue, hdesc]
    split
    all_goals exact joinLines_infix_of_mem (by simp)

/-! ## Witnesses: the theorems above instantiated at concrete inputs -/

/-- The pagination theorem at the concrete two-page oracle `demoPages`,
which stops at page 1 because the cumulative count reaches the reported
total of 2. -/
theorem fetch_tickets_pagination_witness :
    fetch_tickets demoPages 5 = pagesConcat demoPages 2 ∧
    fetch_tickets demoPages 1 = pagesConcat demoPages 1 :=
  fetch_tickets_pagination demoPages 1 5 1
    (fun p h => by simp [demoPages] at h)
    (by decide) (by decide) (by decide) (by decide)

/-- The preview-frame theorem at `demoEnv` over ten records with limit 3. -/
theorem migrate_preview_frame_witness :
    ((migrate_tickets demoEnv demoFetched10 none true).events = [] ∧
     (migrate_tickets demoEnv demoFetched10 none true).success_count
        = (applyLimit none demoFetched10).length ∧
     (migrate_tickets demoEnv demoFetched10 none true).attempted
        = (applyLimit none demoFetched10).length ∧
     (migrate_tickets demoEnv demoFetched10 none true).drafts
        = (applyLimit none demoFetched10).map
            (fun t => convert_ticket_to_issue t (detailFor demoEnv t))) ∧
    ((migrate_tickets demoEnv demoFetched10 (some 3) true).attempted = 3 ∧
     (migrate_tickets demoEnv demoFetched10 (some 3) true).success_count
        = 3 ∧
     (migrate_tickets demoEnv demoFetched10 (some 3) true).events = [] ∧
     (migrate_tickets demoEnv demoFetched10 (some 3) true).drafts
        = (demoFetched10.take 3).map
            (fun t => convert_ticket_to_issue t (detailFor demoEnv t))) :=
  migrate_preview_frame demoEnv demoFetched10 none 3 (by decide) (by decide)

/-- The failure-isolation theorem at `demoEnv` (whose create call fails
exactly at record index 2) over five records: 4 of 5 succeed. -/
theorem migrate_create_failure_isolated_witness :
    (migrate_tickets demoEnv demoFetched5 none false).success_count = 4 ∧
    (migrate_tickets demoEnv demoFetched5 none false).attempted = 5 ∧
    (migrate_tickets demoEnv demoFetched5 none false).events
      = ((applyLimit none demoFetched5).enum).flatMap
          (fun it => recordEvents demoEnv it.1 it.2) :=
  migrate_create_failure_isolated demoEnv demoFetched5 none
    (by decide) (by decide)

/-- The transform-safety theorem at the scenario ticket #42 with no detail,
whose resolved description is empty. -/
theorem convert_total_safe_witness :
    (convert_ticket_to_issue demoTicket none).body ≠ "" ∧
    (∃ a b, (convert_ticket_to_issue demoTicket none).title
        = a ++ ticketNumStr demoTicket ++ b) ∧
    (∃ a b, (convert_ticket_to_issue demoTicket none).body
        = a ++ "*(No description provided)*" ++ b) := by
  obtain ⟨h1, h2, h3⟩ := convert_total_safe demoTicket none
  exact ⟨h1, h2, h3 rfl⟩

/-- The zero-limit theorem at `demoEnv` over five records with `n = 1`. -/
theorem migrate_zero_limit_witness :
    migrate_tickets demoEnv demoFetched5 (some 0) true
        = migrate_tickets demoEnv demoFetched5 none true ∧
    (migrate_tickets demoEnv demoFetched5 (some 0) true).attempted
        = demoFetched5.length ∧
    applyLimit (some 0) demoFetched5 = demoFetched5 ∧
    applyLimit (some 1) demoFetched5 = demoFetched5.take 1 :=
  migrate_zero_limit demoEnv demoFetched5 true 1 (by decide)

end SFMigration
